import Mathlib

/-!
Shallow embedding of `build_assets.py` (Salford theme asset build script).

The filesystem is modelled as a state with three path-indexed maps:
file contents, directory existence, and a directory-listing oracle giving
the names `iterdir` would enumerate (in platform iteration order).  Paths
are lists of components relative to `BASE_DIR`.  Each Python function is
translated to a state transformer; functions whose body can raise an
uncaught exception (a bare `open(..., "w")` whose parent directory may be
absent) return `Except Err`, everything else is total because the source
checks its preconditions (`exists()` guards, `mkdir(parents=True)` before
each write).  Console output is modelled as a list of message tags.

Modelling notes, stated once:
* `Path.exists()` on a path the script treats as a file is modelled as
  file existence, and on a directory path as directory existence; states
  where one path is simultaneously a file and a directory are outside the
  model.
* `shutil.copytree src dst` (always called with `dst` removed first) is
  modelled as wholesale replacement of the `dst` subtree by the image of
  the `src` subtree, with `dst` and its ancestors created.
* `sass.compile(filename=f, include_paths=ps)` is an external collaborator;
  it is abstracted as a function `Config.sassCompile` of the entry file's
  contents (the two fixed include-path roots are folded into it), applied
  only when the script has established that the entry file exists.
* `iterdir` returns, in listing-oracle order, the names under a directory
  that exist as files (directory entries are not modelled).
* `journal_models.Journal.objects.all()` is the external data layer; it is
  the `journals` field of the configuration.
* `call_command("collectstatic", "--noinput")` is external; it is modelled
  as a log entry.
-/

namespace BuildAssets

abbrev Path := List String

/-- Filesystem state: file contents, directory existence, iterdir oracle. -/
@[ext] structure FS where
  files : Path → Option String
  dirs : Path → Bool
  listing : Path → List String

/-- Model of a plain file write (the caller has ensured the parent exists). -/
def setFile (fs : FS) (p : Path) (c : String) : FS :=
  { fs with files := fun q => if q = p then some c else fs.files q }

/-- Model of mkdir with parents and exist_ok: create the directory and its ancestors. -/
def mkdirParents (fs : FS) (p : Path) : FS :=
  { fs with dirs := fun q => fs.dirs q || q.isPrefixOf p }

/-- Model of rmtree: remove the directory and everything under it. -/
def rmtree (fs : FS) (p : Path) : FS :=
  { files := fun q => if p.isPrefixOf q then none else fs.files q
    dirs := fun q => if p.isPrefixOf q then false else fs.dirs q
    listing := fs.listing }

/-- Model of copytree with the destination previously removed: the `dst`
subtree becomes the image of the `src` subtree; `dst` and its ancestors
are created; everything else is untouched. -/
def copytree (fs : FS) (src dst : Path) : FS :=
  { files := fun q =>
      if dst.isPrefixOf q then fs.files (src ++ q.drop dst.length) else fs.files q
    dirs := fun q =>
      if dst.isPrefixOf q then fs.dirs (src ++ q.drop dst.length)
      else fs.dirs q || q.isPrefixOf dst
    listing := fs.listing }

/-- The one uncaught-exception source in the script: `open(p, "w")` (or a
compile-output write) with no guarantee that the parent directory exists. -/
inductive Err where
  | parentMissing (p : Path)
deriving DecidableEq

/-- Checked file write: models `open(p, "w")`, which raises when the parent
directory is absent. -/
def writeFile (fs : FS) (p : Path) (c : String) : Except Err FS :=
  if fs.dirs p.dropLast then .ok (setFile fs p c) else .error (.parentMissing p.dropLast)

/-- Model of iterdir, restricted to file entries, in listing-oracle order. -/
def FS.iterFiles (fs : FS) (d : Path) : List String :=
  (fs.listing d).filter (fun n => (fs.files (d ++ [n])).isSome)

/-- Model of pathlib suffix of a file name: the part from the last dot,
when that dot is neither the first nor the last character. -/
def pathSuffix (s : String) : String :=
  match ((s.data.enum.filter (fun x => x.2 == '.')).map (fun x => x.1)).getLast? with
  | some i => if 0 < i ∧ i < s.data.length - 1 then ⟨s.data.drop i⟩ else ""
  | none => ""

-- Fixed paths of the script (relative to BASE_DIR).

def sourceCss : Path := ["themes", "salford", "assets", "css", "salford.css"]

def cssDestDir : Path := ["static", "salford", "css"]

def destCss : Path := ["static", "salford", "css", "salford.css"]

def assetsSourceDir : Path := ["themes", "salford", "assets"]

def assetsDestDir : Path := ["static", "salford"]

def appScssFile : Path := ["themes", "salford", "assets", "scss", "app.scss"]

def appCssFile : Path := ["static", "salford", "css", "app.css"]

def jsSourcePaths : List Path :=
  [["themes", "salford", "assets", "js", "admin.js"],
   ["themes", "salford", "assets", "js", "app.js"],
   ["themes", "salford", "assets", "js", "footnotes.js"],
   ["themes", "salford", "assets", "js", "table_of_contents.js"],
   ["themes", "salford", "assets", "js", "text_resize.js"],
   ["themes", "salford", "assets", "js", "toastr.js"]]

def jsDestPath : Path := ["static", "salford", "js", "app.js"]

/-- A tenant ("journal") record from the framework's data layer. -/
structure Journal where
  id : Nat
  name : String
deriving DecidableEq

/-- Process environment: the three availability flags probed at import
time, the data layer's journal records, and the abstract SCSS compiler. -/
structure Config where
  djangoAvailable : Bool
  sassAvailable : Bool
  jsminAvailable : Bool
  journals : List Journal
  sassCompile : String → String

/-- Model of copy_css_assets: make the destination directory, then copy the one
CSS file if it exists; report and return `false` otherwise. -/
def copy_css_assets (fs : FS) : FS × List String × Bool :=
  let fs1 := mkdirParents fs cssDestDir
  match fs1.files sourceCss with
  | some c => (setFile fs1 destCss c, ["copied source css to dest css"], true)
  | none => (fs1, ["source css file not found"], false)

/-- Model of copy_all_assets: if the source tree exists, remove any existing
destination tree and copy the whole source tree; report failure otherwise. -/
def copy_all_assets (fs : FS) : FS × List String × Bool :=
  if fs.dirs assetsSourceDir then
    let fs1 := if fs.dirs assetsDestDir then rmtree fs assetsDestDir else fs
    (copytree fs1 assetsSourceDir assetsDestDir, ["copied all assets"], true)
  else
    (fs, ["source assets directory not found"], false)

/-- The polling loop of watch_and_copy, one step per tick: `obs` is the
sequence of `stat().st_mtime` values observed at successive ticks; a tick
whose observation exceeds the recorded `last_modified` runs
`copy_css_assets` and records the new value.  The third component records,
per tick, whether that tick triggered a copy. -/
def watchLoop (fs : FS) (lastModified : Nat) (obs : List Nat) :
    FS × List String × List Bool :=
  match obs with
  | [] => (fs, [], [])
  | current :: rest =>
    if lastModified < current then
      let r1 := copy_css_assets fs
      let r2 := watchLoop r1.1 current rest
      (r2.1,
       ("file changed" :: r1.2.1 ++
         (if r1.2.2 then ["css updated successfully"] else []) ++ r2.2.1),
       true :: r2.2.2)
    else
      let r2 := watchLoop fs lastModified rest
      (r2.1, r2.2.1, false :: r2.2.2)

/-- Model of watch_and_copy: guard on the watched file's existence, take the
initial `st_mtime`, then poll.  `initialM` is the initial stat result and
`obs` the per-tick stat results until the external interrupt. -/
def watch_and_copy (fs : FS) (initialM : Nat) (obs : List Nat) : FS × List String :=
  if (fs.files sourceCss).isSome then
    let r := watchLoop fs initialM obs
    (r.1, ["watching for changes", "press ctrl-c to stop"] ++ r.2.1 ++
      ["stopped watching for changes"])
  else
    (fs, ["source css file not found"])

/-- Model of process_scss: skip (with a warning) unless Django and sass are both
available and the entry file exists; otherwise compile the entry file and
write the result — an unchecked write whose parent directory may be gone. -/
def process_scss (cfg : Config) (fs : FS) : Except Err (FS × List String) :=
  if !cfg.djangoAvailable then .ok (fs, ["django not available, skipping scss processing"])
  else if !cfg.sassAvailable then .ok (fs, ["sass not available, skipping scss processing"])
  else
    match fs.files appScssFile with
    | some c =>
      match writeFile fs appCssFile (cfg.sassCompile c) with
      | .ok fs1 => .ok (fs1, ["compiled scss"])
      | .error e => .error e
    | none => .ok (fs, ["scss file not found"])

/-- Model of process_js: skip unless Django is available; otherwise create the
destination directory, keep the listed source files that exist, and either
concatenate them (in list order) into the destination file or warn. -/
def process_js (cfg : Config) (fs : FS) : FS × List String :=
  if !cfg.djangoAvailable then (fs, ["django not available, skipping js processing"])
  else
    let fs1 := mkdirParents fs jsDestPath.dropLast
    let existing := jsSourcePaths.filter (fun p => (fs1.files p).isSome)
    if !existing.isEmpty then
      (setFile fs1 jsDestPath
        (String.join (existing.map (fun p => (fs1.files p).getD ""))),
       ["processed js files"])
    else (fs1, ["no js files found to process"])

/-- Directory holding a journal's styling overrides. -/
def journalDir (j : Journal) : Path := ["files", "styling", "journals", toString j.id]

/-- Name of the override CSS file written for a journal. -/
def journalOverrideName (j : Journal) : String :=
  "journal" ++ toString j.id ++ "_override.css"

/-- The `.scss` entries of a journal's styling directory, in iteration
order; empty when the directory does not exist. -/
def journalScssFiles (fs : FS) (j : Journal) : List String :=
  if fs.dirs (journalDir j) then
    (fs.iterFiles (journalDir j)).filter (fun n => pathSuffix n == ".scss")
  else []

/-- The per-journal loop of process_journals: tenants with no `.scss`
file are skipped; otherwise the first one found is compiled and written to
`journal<id>_override.css` under `dir` — an unchecked write. -/
def processJournalsLoop (cfg : Config) (dir : Path) (fs : FS) :
    List Journal → Except Err (FS × List String)
  | [] => .ok (fs, [])
  | j :: rest =>
    match journalScssFiles fs j with
    | [] => processJournalsLoop cfg dir fs rest
    | f :: _ =>
      match writeFile fs (dir ++ [journalOverrideName j])
          (cfg.sassCompile ((fs.files (journalDir j ++ [f])).getD "")) with
      | .ok fs1 =>
        match processJournalsLoop cfg dir fs1 rest with
        | .ok r => .ok (r.1, ("processing overrides for journal " ++ toString j.id) :: r.2)
        | .error e => .error e
      | .error e => .error e

/-- Model of process_journals: skip unless Django and sass are both available;
otherwise run the per-journal loop over the data layer's records. -/
def process_journals (cfg : Config) (dir : Path) (fs : FS) :
    Except Err (FS × List String) :=
  if !cfg.djangoAvailable then .ok (fs, ["django not available, skipping journal overrides"])
  else if !cfg.sassAvailable then .ok (fs, ["sass not available, skipping journal overrides"])
  else processJournalsLoop cfg dir fs cfg.journals

/-- Model of create_paths: create the four static subdirectories (and the css one
again) and return the override-CSS directory. -/
def create_paths (fs : FS) : FS × Path :=
  let basePath : Path := ["static", "salford"]
  let fs1 := mkdirParents fs (basePath ++ ["css"])
  let fs2 := mkdirParents fs1 (basePath ++ ["js"])
  let fs3 := mkdirParents fs2 (basePath ++ ["fonts"])
  let fs4 := mkdirParents fs3 (basePath ++ ["img"])
  let fs5 := mkdirParents fs4 (basePath ++ ["css"])
  (fs5, basePath ++ ["css"])

/-- Model of build_full: directory creation, both copies, SCSS, JS, and — only
when Django is available — journal overrides and `collectstatic`. -/
def build_full (cfg : Config) (fs : FS) : Except Err (FS × List String) :=
  let r0 := create_paths fs
  let r1 := copy_css_assets r0.1
  let r2 := copy_all_assets r1.1
  match process_scss cfg r2.1 with
  | .error e => .error e
  | .ok r3 =>
    let r4 := process_js cfg r3.1
    if cfg.djangoAvailable then
      match process_journals cfg r0.2 r4.1 with
      | .error e => .error e
      | .ok r5 =>
        .ok (r5.1,
          ["starting full build process", "copying css assets"] ++ r1.2.1 ++
          ["copying all assets"] ++ r2.2.1 ++ ["processing scss"] ++ r3.2 ++
          ["processing js"] ++ r4.2 ++ ["processing journal overrides"] ++ r5.2 ++
          ["running collectstatic", "collectstatic --noinput", "full build completed"])
    else
      .ok (r4.1,
        ["starting full build process", "copying css assets"] ++ r1.2.1 ++
        ["copying all assets"] ++ r2.2.1 ++ ["processing scss"] ++ r3.2 ++
        ["processing js"] ++ r4.2 ++ ["full build completed"])

/-- Model of build_simple: the two copy steps only. -/
def build_simple (fs : FS) : FS × List String :=
  let r1 := copy_css_assets fs
  let r2 := copy_all_assets r1.1
  (r2.1, ["starting simple build"] ++ r1.2.1 ++ r2.2.1 ++ ["simple build completed"])

/-- Model of show_help: the usage text. -/
def show_help : List String :=
  ["salford theme build script",
   "usage: python build_assets.py mode",
   "modes: copy watch build help",
   "copy: copy css and all assets, default",
   "watch: watch for css changes and auto-copy",
   "build: full build with scss, js, and django features",
   "help: show this help message"]

/-- Model of main: mode dispatch on argv.  Arguments `initialM` and `obs` are the
stat observations consumed only by `watch` mode. -/
def main (cfg : Config) (argv : List String) (initialM : Nat) (obs : List Nat)
    (fs : FS) : Except Err (FS × List String) :=
  let mode := (argv.drop 1).headD "copy"
  if mode = "help" ∨ mode = "--help" ∨ mode = "-h" then .ok (fs, show_help)
  else if mode = "copy" then .ok (build_simple fs)
  else if mode = "watch" then
    let r1 := copy_css_assets fs
    let r2 := watch_and_copy r1.1 initialM obs
    .ok (r2.1, ["salford theme css watcher", "performing initial copy"] ++ r1.2.1 ++ r2.2)
  else if mode = "build" then build_full cfg fs
  else .ok (fs, ("unknown mode " ++ mode) :: show_help)

-- Concrete fixtures used by the witness and counterexample theorems.

/-- A filesystem holding the theme tree, one journal styling directory,
and a pre-existing static css directory. -/
def fsW : FS :=
  { files := fun q =>
      if q = sourceCss then some "CSSBODY"
      else if q = appScssFile then some "SCSSBODY"
      else if q = ["themes", "salford", "assets", "js", "admin.js"] then some "JS1"
      else if q = ["themes", "salford", "assets", "js", "app.js"] then some "JS2"
      else if q = ["files", "styling", "journals", "1", "b.scss"] then some "OVR"
      else none
    dirs := fun q =>
      q.isPrefixOf assetsSourceDir ||
      decide (q = ["themes", "salford", "assets", "css"]) ||
      decide (q = ["themes", "salford", "assets", "scss"]) ||
      decide (q = ["themes", "salford", "assets", "js"]) ||
      decide (q = cssDestDir) ||
      decide (q = ["files", "styling", "journals", "1"])
    listing := fun q =>
      if q = ["files", "styling", "journals", "1"] then ["a.scss", "b.scss", "note.txt"]
      else [] }

/-- The empty filesystem. -/
def fsEmpty : FS :=
  { files := fun _ => none, dirs := fun _ => false, listing := fun _ => [] }

/-- A filesystem whose theme assets tree exists but has no css
subdirectory, while the SCSS entry file exists. -/
def fsCE : FS :=
  { files := fun q => if q = appScssFile then some "x" else none
    dirs := fun q =>
      decide (q = ["themes", "salford", "assets", "scss"]) ||
      q.isPrefixOf assetsSourceDir
    listing := fun _ => [] }

/-- A configuration with every collaborator available and one journal. -/
def cfgW : Config :=
  { djangoAvailable := true, sassAvailable := true, jsminAvailable := true,
    journals := [{ id := 1, name := "Journal One" }],
    sassCompile := fun s => "compiled " ++ s }

/-- A configuration with every optional collaborator absent. -/
def cfgOff : Config :=
  { djangoAvailable := false, sassAvailable := false, jsminAvailable := false,
    journals := [], sassCompile := fun s => s }

-- Helper lemmas.

theorem files_setFile_self (fs : FS) (p : Path) (c : String) :
    (setFile fs p c).files p = some c := by
  simp [setFile]

theorem files_setFile_ne (fs : FS) (p : Path) (c : String) (q : Path) (h : q ≠ p) :
    (setFile fs p c).files q = fs.files q := by
  simp [setFile, h]

theorem dirs_setFile (fs : FS) (p : Path) (c : String) :
    (setFile fs p c).dirs = fs.dirs := rfl

theorem listing_setFile (fs : FS) (p : Path) (c : String) :
    (setFile fs p c).listing = fs.listing := rfl

theorem files_mkdirParents (fs : FS) (p : Path) :
    (mkdirParents fs p).files = fs.files := rfl

theorem listing_mkdirParents (fs : FS) (p : Path) :
    (mkdirParents fs p).listing = fs.listing := rfl

theorem dirs_mkdirParents_mono (fs : FS) (p q : Path) (h : fs.dirs q = true) :
    (mkdirParents fs p).dirs q = true := by
  simp [mkdirParents, h]

theorem isPrefixOf_append_self (l r : List String) : l.isPrefixOf (l ++ r) = true := by
  simp

theorem isPrefixOf_self (l : List String) : l.isPrefixOf l = true := by
  simp

theorem isPrefixOf_cons_ne (a b : String) (l m : List String) (h : (a == b) = false) :
    (a :: l).isPrefixOf (b :: m) = false := by
  show (a == b && l.isPrefixOf m) = false
  rw [h, Bool.false_and]

theorem cons_ne_cons_head (a b : String) (l m : List String) (h : a ≠ b) :
    (a :: l) ≠ (b :: m) := by
  intro he
  injection he with h1 _
  exact h h1

theorem copytree_files_sub (fs : FS) (src dst r : Path) :
    (copytree fs src dst).files (dst ++ r) = fs.files (src ++ r) := by
  simp [copytree, List.drop_left]

theorem copytree_dirs_sub (fs : FS) (src dst r : Path) :
    (copytree fs src dst).dirs (dst ++ r) = fs.dirs (src ++ r) := by
  simp [copytree, List.drop_left]

theorem not_prefix_of_isPrefixOf_false (p q : Path) (h : p.isPrefixOf q = false) :
    ¬ p <+: q := by
  intro hc
  rw [← List.isPrefixOf_iff_prefix, h] at hc
  exact absurd hc (by simp)

theorem copytree_files_out (fs : FS) (src dst q : Path) (h : dst.isPrefixOf q = false) :
    (copytree fs src dst).files q = fs.files q := by
  simp [copytree, not_prefix_of_isPrefixOf_false _ _ h]

theorem copytree_dirs_out (fs : FS) (src dst q : Path) (h : dst.isPrefixOf q = false) :
    (copytree fs src dst).dirs q = (fs.dirs q || q.isPrefixOf dst) := by
  simp [copytree, not_prefix_of_isPrefixOf_false _ _ h]

theorem copytree_listing (fs : FS) (src dst : Path) :
    (copytree fs src dst).listing = fs.listing := rfl

theorem rmtree_files_out (fs : FS) (p q : Path) (h : p.isPrefixOf q = false) :
    (rmtree fs p).files q = fs.files q := by
  simp [rmtree, not_prefix_of_isPrefixOf_false _ _ h]

theorem rmtree_dirs_out (fs : FS) (p q : Path) (h : p.isPrefixOf q = false) :
    (rmtree fs p).dirs q = fs.dirs q := by
  simp [rmtree, not_prefix_of_isPrefixOf_false _ _ h]

theorem rmtree_listing (fs : FS) (p : Path) : (rmtree fs p).listing = fs.listing := rfl

theorem static_not_pre_themes (r s : List String) :
    (("static" :: r) : Path).isPrefixOf ("themes" :: s) = false :=
  isPrefixOf_cons_ne _ _ _ _ (by decide)

theorem themes_not_pre_static (r s : List String) :
    (("themes" :: r) : Path).isPrefixOf ("static" :: s) = false :=
  isPrefixOf_cons_ne _ _ _ _ (by decide)

theorem copy_css_dirs (fs : FS) (q : Path) :
    (copy_css_assets fs).1.dirs q = (fs.dirs q || q.isPrefixOf cssDestDir) := by
  simp only [copy_css_assets]
  rw [files_mkdirParents]
  cases hf : fs.files sourceCss <;> simp [mkdirParents, setFile]

theorem copy_css_files_ne (fs : FS) (q : Path) (h : q ≠ destCss) :
    (copy_css_assets fs).1.files q = fs.files q := by
  simp only [copy_css_assets]
  rw [files_mkdirParents]
  cases hf : fs.files sourceCss <;> simp [mkdirParents, setFile, h]

theorem copy_css_listing (fs : FS) :
    (copy_css_assets fs).1.listing = fs.listing := by
  simp only [copy_css_assets]
  rw [files_mkdirParents]
  cases hf : fs.files sourceCss <;> rfl

/-- Claim C3: if the source CSS file exists, `copy_css_assets` copies its
contents byte-for-byte to the destination file and returns true. -/
theorem claim_C3 (fs : FS) (c : String) (h : fs.files sourceCss = some c) :
    (copy_css_assets fs).1.files destCss = some c ∧ (copy_css_assets fs).2.2 = true := by
  simp only [copy_css_assets]
  rw [files_mkdirParents, h]
  exact ⟨files_setFile_self _ _ _, rfl⟩

theorem claim_C3_witness :
    fsW.files sourceCss = some "CSSBODY" ∧
    (copy_css_assets fsW).1.files destCss = some "CSSBODY" ∧
    (copy_css_assets fsW).2.2 = true :=
  ⟨by decide, claim_C3 fsW "CSSBODY" (by decide)⟩

/-- Claim C10: when the source CSS file is absent, `copy_css_assets`
returns false yet has already created the destination directory, so the
failure path is not free of filesystem side effects. -/
theorem claim_C10 (fs : FS) (h : fs.files sourceCss = none) :
    (copy_css_assets fs).2.2 = false ∧ (copy_css_assets fs).1.dirs cssDestDir = true := by
  simp only [copy_css_assets]
  rw [files_mkdirParents, h]
  refine ⟨rfl, ?_⟩
  simp [mkdirParents]

theorem claim_C10_witness :
    fsEmpty.files sourceCss = none ∧
    (copy_css_assets fsEmpty).2.2 = false ∧
    (copy_css_assets fsEmpty).1.dirs cssDestDir = true :=
  ⟨rfl, claim_C10 fsEmpty rfl⟩

/-- Claim C4: with the framework available, `process_js` concatenates the
contents of the listed source files that exist, in the fixed list order,
into the destination file, inserting nothing for missing files; when none
of the listed files exists it warns and writes no file. -/
theorem claim_C4 (cfg : Config) (fs : FS) (hdj : cfg.djangoAvailable = true) :
    ((jsSourcePaths.filter (fun p => (fs.files p).isSome)) ≠ [] →
      (process_js cfg fs).1.files jsDestPath =
        some (String.join ((jsSourcePaths.filter (fun p => (fs.files p).isSome)).map
          (fun p => (fs.files p).getD "")))) ∧
    ((jsSourcePaths.filter (fun p => (fs.files p).isSome)) = [] →
      (∀ p : Path, (process_js cfg fs).1.files p = fs.files p) ∧
      (process_js cfg fs).2 = ["no js files found to process"]) := by
  constructor
  · intro hne
    simp only [process_js, hdj, Bool.not_true]
    rw [files_mkdirParents]
    cases hex : jsSourcePaths.filter (fun p => (fs.files p).isSome) with
    | nil => exact absurd hex hne
    | cons a l =>
      simp only [List.isEmpty_cons, Bool.not_false, if_true]
      exact files_setFile_self _ _ _
  · intro heq
    simp only [process_js, hdj, Bool.not_true]
    rw [files_mkdirParents, heq]
    simp only [List.isEmpty_nil, Bool.not_true]
    exact ⟨fun p => rfl, rfl⟩

theorem claim_C4_witness :
    cfgW.djangoAvailable = true ∧
    ((jsSourcePaths.filter (fun p => (fsW.files p).isSome)) ≠ [] →
      (process_js cfgW fsW).1.files jsDestPath =
        some (String.join ((jsSourcePaths.filter (fun p => (fsW.files p).isSome)).map
          (fun p => (fsW.files p).getD "")))) ∧
    ((jsSourcePaths.filter (fun p => (fsW.files p).isSome)) = [] →
      (∀ p : Path, (process_js cfgW fsW).1.files p = fsW.files p) ∧
      (process_js cfgW fsW).2 = ["no js files found to process"]) :=
  ⟨rfl, claim_C4 cfgW fsW rfl⟩

/-- Claim C7: running with no command-line argument is the same as running
with the token copy, and an unrecognized token reports it, prints the
usage text, and leaves the filesystem untouched. -/
theorem claim_C7 (cfg : Config) (initialM : Nat) (obs : List Nat) (fs : FS) (t : String)
    (h : t ∉ (["copy", "watch", "build", "help", "--help", "-h"] : List String)) :
    main cfg ["build_assets.py"] initialM obs fs =
      main cfg ["build_assets.py", "copy"] initialM obs fs ∧
    main cfg ["build_assets.py", t] initialM obs fs =
      .ok (fs, ("unknown mode " ++ t) :: show_help) := by
  simp only [List.mem_cons, List.not_mem_nil, or_false, not_or] at h
  obtain ⟨h1, h2, h3, h4, h5, h6⟩ := h
  refine ⟨rfl, ?_⟩
  simp only [main, List.drop_succ_cons, List.drop_zero, List.headD_cons]
  rw [if_neg (by simp [h4, h5, h6]), if_neg h1, if_neg h2, if_neg h3]

theorem claim_C7_witness :
    ("frobnicate" ∉ (["copy", "watch", "build", "help", "--help", "-h"] : List String)) ∧
    (main cfgW ["build_assets.py"] 0 [] fsW =
      main cfgW ["build_assets.py", "copy"] 0 [] fsW ∧
    main cfgW ["build_assets.py", "frobnicate"] 0 [] fsW =
      .ok (fsW, ("unknown mode " ++ "frobnicate") :: show_help)) :=
  ⟨by decide, claim_C7 cfgW 0 [] fsW "frobnicate" (by decide)⟩

/-- Claim C5: with the SCSS compiler and the framework both unavailable,
build mode returns without an error, the final state is exactly the one
produced by directory creation followed by the two copy steps, and the log
shows the SCSS and JS steps skipped, with no journal-override or
collectstatic entries. -/
theorem claim_C5 (cfg : Config) (fs : FS)
    (h1 : cfg.djangoAvailable = false) (h2 : cfg.sassAvailable = false) :
    build_full cfg fs = .ok
      ((copy_all_assets (copy_css_assets (create_paths fs).1).1).1,
       ["starting full build process", "copying css assets"] ++
         (copy_css_assets (create_paths fs).1).2.1 ++
       ["copying all assets"] ++
         (copy_all_assets (copy_css_assets (create_paths fs).1).1).2.1 ++
       ["processing scss", "django not available, skipping scss processing",
        "processing js", "django not available, skipping js processing",
        "full build completed"]) := by
  simp [build_full, process_scss, process_js, h1, h2]

theorem claim_C5_witness :
    cfgOff.djangoAvailable = false ∧ cfgOff.sassAvailable = false ∧
    build_full cfgOff fsW = .ok
      ((copy_all_assets (copy_css_assets (create_paths fsW).1).1).1,
       ["starting full build process", "copying css assets"] ++
         (copy_css_assets (create_paths fsW).1).2.1 ++
       ["copying all assets"] ++
         (copy_all_assets (copy_css_assets (create_paths fsW).1).1).2.1 ++
       ["processing scss", "django not available, skipping scss processing",
        "processing js", "django not available, skipping js processing",
        "full build completed"]) :=
  ⟨rfl, rfl, claim_C5 cfgOff fsW rfl rfl⟩

theorem watchLoop_trigger_length (obs : List Nat) : ∀ (fs : FS) (lastModified : Nat),
    (watchLoop fs lastModified obs).2.2.length = obs.length := by
  induction obs with
  | nil => intro fs l; rfl
  | cons c rest ih =>
    intro fs l
    simp only [watchLoop]
    by_cases h : l < c
    · simp [h, ih]
    · simp [h, ih]

theorem watchLoop_trigger (obs : List Nat) : ∀ (fs : FS) (lastModified i : Nat),
    i < obs.length →
    (watchLoop fs lastModified obs).2.2[i]? =
      some (decide (List.foldl max lastModified (obs.take i) < obs.getD i 0)) := by
  induction obs with
  | nil => intro fs l i h; exact absurd h (by simp)
  | cons c rest ih =>
    intro fs l i h
    simp only [watchLoop]
    by_cases hc : l < c
    · cases i with
      | zero => simp [hc]
      | succ n =>
        have hn : n < rest.length := by simpa using h
        simp only [if_pos hc, List.getElem?_cons_succ, List.take_succ_cons,
          List.foldl_cons, List.getD_cons_succ]
        have hm : max l c = c := Nat.max_eq_right (Nat.le_of_lt hc)
        simp only [hm]
        exact ih _ c n hn
    · cases i with
      | zero => simp [hc]
      | succ n =>
        have hn : n < rest.length := by simpa using h
        simp only [if_neg hc, List.getElem?_cons_succ, List.take_succ_cons,
          List.foldl_cons, List.getD_cons_succ]
        have hm : max l c = l := Nat.max_eq_left (Nat.le_of_not_lt hc)
        simp only [hm]
        exact ih _ l n hn

/-- Claim C6: in the polling loop, the tick decisions are one per observed
timestamp, and a tick triggers a copy exactly when the timestamp observed
at that tick strictly exceeds the recorded last-modified value, which at
tick `i` equals the running maximum of the initial value and all earlier
observations. -/
theorem claim_C6 (fs : FS) (lastModified : Nat) (obs : List Nat) (i : Nat)
    (h : i < obs.length) :
    (watchLoop fs lastModified obs).2.2.length = obs.length ∧
    (watchLoop fs lastModified obs).2.2[i]? =
      some (decide (List.foldl max lastModified (obs.take i) < obs.getD i 0)) :=
  ⟨watchLoop_trigger_length obs fs lastModified, watchLoop_trigger obs fs lastModified i h⟩

theorem claim_C6_witness :
    1 < ([3, 7, 6, 9] : List Nat).length ∧
    ((watchLoop fsW 5 [3, 7, 6, 9]).2.2.length = ([3, 7, 6, 9] : List Nat).length ∧
     (watchLoop fsW 5 [3, 7, 6, 9]).2.2[1]? =
       some (decide (List.foldl max 5 (([3, 7, 6, 9] : List Nat).take 1) <
         ([3, 7, 6, 9] : List Nat).getD 1 0))) :=
  ⟨by decide, claim_C6 fsW 5 [3, 7, 6, 9] 1 (by decide)⟩

theorem copy_all_state (fs : FS) (h : fs.dirs assetsSourceDir = true) :
    (copy_all_assets fs).1 =
      copytree (if fs.dirs assetsDestDir then rmtree fs assetsDestDir else fs)
        assetsSourceDir assetsDestDir := by
  simp [copy_all_assets, h]

theorem copy_all_files_sub (fs : FS) (h : fs.dirs assetsSourceDir = true) (r : Path) :
    (copy_all_assets fs).1.files (assetsDestDir ++ r) = fs.files (assetsSourceDir ++ r) := by
  rw [copy_all_state fs h, copytree_files_sub]
  by_cases hd : fs.dirs assetsDestDir = true
  · rw [if_pos hd, rmtree_files_out]
    exact static_not_pre_themes _ _
  · rw [if_neg hd]

theorem copy_all_dirs_sub (fs : FS) (h : fs.dirs assetsSourceDir = true) (r : Path) :
    (copy_all_assets fs).1.dirs (assetsDestDir ++ r) = fs.dirs (assetsSourceDir ++ r) := by
  rw [copy_all_state fs h, copytree_dirs_sub]
  by_cases hd : fs.dirs assetsDestDir = true
  · rw [if_pos hd, rmtree_dirs_out]
    exact static_not_pre_themes _ _
  · rw [if_neg hd]

theorem copy_all_files_out (fs : FS) (h : fs.dirs assetsSourceDir = true) (q : Path)
    (hq : assetsDestDir.isPrefixOf q = false) :
    (copy_all_assets fs).1.files q = fs.files q := by
  rw [copy_all_state fs h, copytree_files_out _ _ _ _ hq]
  by_cases hd : fs.dirs assetsDestDir = true
  · rw [if_pos hd, rmtree_files_out _ _ _ hq]
  · rw [if_neg hd]

theorem copy_all_dirs_out (fs : FS) (h : fs.dirs assetsSourceDir = true) (q : Path)
    (hq : assetsDestDir.isPrefixOf q = false) :
    (copy_all_assets fs).1.dirs q = (fs.dirs q || q.isPrefixOf assetsDestDir) := by
  rw [copy_all_state fs h, copytree_dirs_out _ _ _ _ hq]
  by_cases hd : fs.dirs assetsDestDir = true
  · rw [if_pos hd, rmtree_dirs_out _ _ _ hq]
  · rw [if_neg hd]

theorem copy_all_listing (fs : FS) (h : fs.dirs assetsSourceDir = true) :
    (copy_all_assets fs).1.listing = fs.listing := by
  rw [copy_all_state fs h, copytree_listing]
  by_cases hd : fs.dirs assetsDestDir = true
  · rw [if_pos hd, rmtree_listing]
  · rw [if_neg hd]

theorem copy_all_src_dir (fs : FS) (h : fs.dirs assetsSourceDir = true) :
    (copy_all_assets fs).1.dirs assetsSourceDir = true := by
  rw [copy_all_dirs_out fs h assetsSourceDir (static_not_pre_themes _ _), h]
  rfl

theorem copy_all_idem (fs : FS) (h : fs.dirs assetsSourceDir = true) :
    (copy_all_assets (copy_all_assets fs).1).1 = (copy_all_assets fs).1 := by
  have h1 : (copy_all_assets fs).1.dirs assetsSourceDir = true := copy_all_src_dir fs h
  apply FS.ext
  · funext q
    cases hq : assetsDestDir.isPrefixOf q with
    | true =>
      obtain ⟨r, rfl⟩ := List.isPrefixOf_iff_prefix.mp hq
      rw [copy_all_files_sub _ h1 r, copy_all_files_sub fs h r]
      exact copy_all_files_out fs h _ (static_not_pre_themes _ _)
    | false =>
      rw [copy_all_files_out _ h1 q hq]
  · funext q
    cases hq : assetsDestDir.isPrefixOf q with
    | true =>
      obtain ⟨r, rfl⟩ := List.isPrefixOf_iff_prefix.mp hq
      rw [copy_all_dirs_sub _ h1 r, copy_all_dirs_sub fs h r]
      have e := copy_all_dirs_out fs h (assetsSourceDir ++ r) (static_not_pre_themes _ _)
      have e2 : (assetsSourceDir ++ r).isPrefixOf assetsDestDir = false :=
        themes_not_pre_static _ _
      rw [e, e2, Bool.or_false]
    | false =>
      rw [copy_all_dirs_out _ h1 q hq, copy_all_dirs_out fs h q hq,
        Bool.or_assoc, Bool.or_self]
  · rw [copy_all_listing _ h1, copy_all_listing fs h]

/-- Claim C2: when the source assets directory exists, after
`copy_all_assets` the destination tree is an exact replica of the source
tree (files and directories), every file that existed only in the
destination beforehand is gone, and a second run leaves the filesystem
unchanged. -/
theorem claim_C2 (fs : FS) (h : fs.dirs assetsSourceDir = true) :
    (∀ r : Path,
       (copy_all_assets fs).1.files (assetsDestDir ++ r) = fs.files (assetsSourceDir ++ r) ∧
       (copy_all_assets fs).1.dirs (assetsDestDir ++ r) = fs.dirs (assetsSourceDir ++ r)) ∧
    (∀ r : Path, fs.files (assetsSourceDir ++ r) = none →
       (copy_all_assets fs).1.files (assetsDestDir ++ r) = none) ∧
    (copy_all_assets (copy_all_assets fs).1).1 = (copy_all_assets fs).1 :=
  ⟨fun r => ⟨copy_all_files_sub fs h r, copy_all_dirs_sub fs h r⟩,
   fun r hr => by rw [copy_all_files_sub fs h r, hr],
   copy_all_idem fs h⟩

theorem claim_C2_witness :
    fsW.dirs assetsSourceDir = true ∧
    ((∀ r : Path,
       (copy_all_assets fsW).1.files (assetsDestDir ++ r) =
         fsW.files (assetsSourceDir ++ r) ∧
       (copy_all_assets fsW).1.dirs (assetsDestDir ++ r) =
         fsW.dirs (assetsSourceDir ++ r)) ∧
    (∀ r : Path, fsW.files (assetsSourceDir ++ r) = none →
       (copy_all_assets fsW).1.files (assetsDestDir ++ r) = none) ∧
    (copy_all_assets (copy_all_assets fsW).1).1 = (copy_all_assets fsW).1) :=
  ⟨by decide, claim_C2 fsW (by decide)⟩

theorem themes_ne_destCss (r : Path) : (assetsSourceDir ++ r) ≠ destCss :=
  cons_ne_cons_head _ _ _ _ (by decide)

theorem pre_css_eq_pre_dst (q : Path) (hq : assetsDestDir.isPrefixOf q = false) :
    q.isPrefixOf cssDestDir = q.isPrefixOf assetsDestDir := by
  cases hc : q.isPrefixOf assetsDestDir with
  | false =>
    cases hcss : q.isPrefixOf cssDestDir with
    | false => rfl
    | true =>
      exfalso
      have h1 : q <+: cssDestDir := List.isPrefixOf_iff_prefix.mp hcss
      have h2 : assetsDestDir <+: cssDestDir := by decide
      rcases List.prefix_or_prefix_of_prefix h1 h2 with h3 | h3
      · rw [← List.isPrefixOf_iff_prefix, hc] at h3
        exact absurd h3 (by simp)
      · rw [← List.isPrefixOf_iff_prefix, hq] at h3
        exact absurd h3 (by simp)
  | true =>
    have h1 : q <+: assetsDestDir := List.isPrefixOf_iff_prefix.mp hc
    have h2 : q <+: cssDestDir := h1.trans (by decide)
    rw [← List.isPrefixOf_iff_prefix] at h2
    exact h2

/-- Claim C9: in copy mode, the CSS-only copy that precedes the full copy
has no effect on the final state: when the source assets directory exists,
`build_simple` produces exactly the filesystem `copy_all_assets` alone
produces (in particular the same static salford tree). -/
theorem claim_C9 (fs : FS) (h : fs.dirs assetsSourceDir = true) :
    (build_simple fs).1 = (copy_all_assets fs).1 := by
  have hg : (copy_css_assets fs).1.dirs assetsSourceDir = true := by
    have e2 : assetsSourceDir.isPrefixOf cssDestDir = false := themes_not_pre_static _ _
    rw [copy_css_dirs fs assetsSourceDir, e2, Bool.or_false, h]
  show (copy_all_assets (copy_css_assets fs).1).1 = (copy_all_assets fs).1
  apply FS.ext
  · funext q
    cases hq : assetsDestDir.isPrefixOf q with
    | true =>
      obtain ⟨r, rfl⟩ := List.isPrefixOf_iff_prefix.mp hq
      rw [copy_all_files_sub _ hg r, copy_all_files_sub fs h r,
        copy_css_files_ne fs _ (themes_ne_destCss r)]
    | false =>
      have hne : q ≠ destCss := by
        intro he
        rw [he] at hq
        exact absurd hq (by decide)
      rw [copy_all_files_out _ hg q hq, copy_all_files_out fs h q hq,
        copy_css_files_ne fs q hne]
  · funext q
    cases hq : assetsDestDir.isPrefixOf q with
    | true =>
      obtain ⟨r, rfl⟩ := List.isPrefixOf_iff_prefix.mp hq
      have e2 : (assetsSourceDir ++ r).isPrefixOf cssDestDir = false :=
        themes_not_pre_static _ _
      rw [copy_all_dirs_sub _ hg r, copy_all_dirs_sub fs h r, copy_css_dirs, e2,
        Bool.or_false]
    | false =>
      rw [copy_all_dirs_out _ hg q hq, copy_all_dirs_out fs h q hq, copy_css_dirs,
        pre_css_eq_pre_dst q hq, Bool.or_assoc, Bool.or_self]
  · rw [copy_all_listing _ hg, copy_all_listing fs h, copy_css_listing]

theorem claim_C9_witness :
    fsW.dirs assetsSourceDir = true ∧ (build_simple fsW).1 = (copy_all_assets fsW).1 :=
  ⟨by decide, claim_C9 fsW (by decide)⟩

theorem static_path_ne_files_path (l m : List String) :
    (("static" :: l) : Path) ≠ ("files" :: m) :=
  cons_ne_cons_head _ _ _ _ (by decide)

theorem journalDir_files_setFile (fs : FS) (x c : String) (j : Journal) (n : String) :
    (setFile fs (cssDestDir ++ [x]) c).files (journalDir j ++ [n]) =
      fs.files (journalDir j ++ [n]) :=
  files_setFile_ne _ _ _ _ (fun he => static_path_ne_files_path _ _ he.symm)

theorem journalScssFiles_setFile (fs : FS) (x c : String) (j : Journal) :
    journalScssFiles (setFile fs (cssDestDir ++ [x]) c) j = journalScssFiles fs j := by
  simp only [journalScssFiles, FS.iterFiles, dirs_setFile, listing_setFile]
  cases fs.dirs (journalDir j)
  case false => rfl
  case true =>
    have hf : (fun n => ((setFile fs (cssDestDir ++ [x]) c).files (journalDir j ++ [n])).isSome)
        = (fun n => (fs.files (journalDir j ++ [n])).isSome) :=
      funext fun n => by rw [journalDir_files_setFile]
    rw [hf]

theorem out_name_inj (a b : String)
    (h : (cssDestDir ++ [a] : Path) = cssDestDir ++ [b]) : a = b := by
  have h2 := List.append_cancel_left h
  injection h2

theorem processJournalsLoop_spec (cfg : Config) :
    ∀ (js : List Journal) (fs : FS),
      fs.dirs cssDestDir = true →
      (js.map journalOverrideName).Nodup →
      ∃ fs1 log, processJournalsLoop cfg cssDestDir fs js = .ok (fs1, log) ∧
        fs1.dirs = fs.dirs ∧ fs1.listing = fs.listing ∧
        (∀ p : Path, (∀ j ∈ js, p ≠ cssDestDir ++ [journalOverrideName j]) →
          fs1.files p = fs.files p) ∧
        ∀ j ∈ js,
          (∀ f rest, journalScssFiles fs j = f :: rest →
            fs1.files (cssDestDir ++ [journalOverrideName j]) =
              some (cfg.sassCompile ((fs.files (journalDir j ++ [f])).getD ""))) ∧
          (journalScssFiles fs j = [] →
            fs1.files (cssDestDir ++ [journalOverrideName j]) =
              fs.files (cssDestDir ++ [journalOverrideName j])) := by
  intro js
  induction js with
  | nil =>
    intro fs hdir hnodup
    exact ⟨fs, [], rfl, rfl, rfl, fun p _ => rfl, fun j hj => absurd hj (List.not_mem_nil j)⟩
  | cons j0 rest ih =>
    intro fs hdir hnodup
    rw [List.map_cons, List.nodup_cons] at hnodup
    obtain ⟨hname, hnodup2⟩ := hnodup
    cases hscss : journalScssFiles fs j0 with
    | nil =>
      obtain ⟨fs1, log, heq, hdirs, hlist, hframe, hjs⟩ := ih fs hdir hnodup2
      refine ⟨fs1, log, ?_, hdirs, hlist, ?_, ?_⟩
      · simp only [processJournalsLoop, hscss]
        exact heq
      · intro p hp
        exact hframe p (fun j hj => hp j (List.mem_cons_of_mem _ hj))
      · intro j hj
        rcases List.mem_cons.mp hj with rfl | hj2
        · refine ⟨?_, ?_⟩
          · intro f r hf
            rw [hscss] at hf
            cases hf
          · intro _
            apply hframe
            intro k hk hk2
            apply hname
            rw [List.mem_map]
            exact ⟨k, hk, (out_name_inj _ _ hk2).symm⟩
        · exact hjs j hj2
    | cons f fr =>
      have hw : writeFile fs (cssDestDir ++ [journalOverrideName j0])
          (cfg.sassCompile ((fs.files (journalDir j0 ++ [f])).getD "")) =
          .ok (setFile fs (cssDestDir ++ [journalOverrideName j0])
            (cfg.sassCompile ((fs.files (journalDir j0 ++ [f])).getD ""))) := by
        unfold writeFile
        rw [List.dropLast_concat, hdir]
        rfl
      have hdir1 : (setFile fs (cssDestDir ++ [journalOverrideName j0])
          (cfg.sassCompile ((fs.files (journalDir j0 ++ [f])).getD ""))).dirs
            cssDestDir = true := hdir
      obtain ⟨fs1, log, heq, hdirs, hlist, hframe, hjs⟩ := ih _ hdir1 hnodup2
      refine ⟨fs1, ("processing overrides for journal " ++ toString j0.id) :: log,
        ?_, ?_, ?_, ?_, ?_⟩
      · simp only [processJournalsLoop, hscss, hw, heq]
      · rw [hdirs, dirs_setFile]
      · rw [hlist, listing_setFile]
      · intro p hp
        rw [hframe p (fun k hk => hp k (List.mem_cons_of_mem _ hk)),
          files_setFile_ne _ _ _ _ (hp j0 (List.mem_cons_self _ _))]
      · intro j hj
        rcases List.mem_cons.mp hj with rfl | hj2
        · refine ⟨?_, ?_⟩
          · intro f2 r2 hf2
            rw [hscss] at hf2
            injection hf2 with hf2a _
            subst hf2a
            have hfr : fs1.files (cssDestDir ++ [journalOverrideName j]) =
                (setFile fs (cssDestDir ++ [journalOverrideName j])
                  (cfg.sassCompile ((fs.files (journalDir j ++ [f])).getD ""))).files
                  (cssDestDir ++ [journalOverrideName j]) := by
              apply hframe
              intro k hk hk2
              apply hname
              rw [List.mem_map]
              exact ⟨k, hk, (out_name_inj _ _ hk2).symm⟩
            rw [hfr, files_setFile_self]
          · intro h0
            rw [hscss] at h0
            cases h0
        · have hscssj : journalScssFiles (setFile fs (cssDestDir ++ [journalOverrideName j0])
              (cfg.sassCompile ((fs.files (journalDir j0 ++ [f])).getD ""))) j =
              journalScssFiles fs j := journalScssFiles_setFile fs _ _ j
          obtain ⟨hA, hB⟩ := hjs j hj2
          refine ⟨?_, ?_⟩
          · intro f2 r2 hf2
            rw [hA f2 r2 (by rw [hscssj, hf2]), journalDir_files_setFile]
          · intro h0
            rw [hB (by rw [hscssj, h0])]
            apply files_setFile_ne
            intro he
            apply hname
            rw [List.mem_map]
            exact ⟨j, hj2, out_name_inj _ _ he⟩

/-- Claim C8: with the framework and the SCSS compiler available and
distinct per-tenant override names, the override processor succeeds; every
tenant whose styling directory holds at least one scss entry gets exactly
the first such entry (in iteration order) compiled into the file named
journal-id_override.css, and every tenant with no styling directory or no
scss entry is skipped with its override file left untouched. -/
theorem claim_C8 (cfg : Config) (fs : FS)
    (hdj : cfg.djangoAvailable = true) (hsass : cfg.sassAvailable = true)
    (hdir : fs.dirs cssDestDir = true)
    (hnames : (cfg.journals.map journalOverrideName).Nodup) :
    ∃ r, process_journals cfg cssDestDir fs = .ok r ∧
      ∀ j ∈ cfg.journals,
        (∀ f rest, journalScssFiles fs j = f :: rest →
          r.1.files (cssDestDir ++ [journalOverrideName j]) =
            some (cfg.sassCompile ((fs.files (journalDir j ++ [f])).getD ""))) ∧
        (journalScssFiles fs j = [] →
          r.1.files (cssDestDir ++ [journalOverrideName j]) =
            fs.files (cssDestDir ++ [journalOverrideName j])) := by
  obtain ⟨fs1, log, heq, _, _, _, hjs⟩ :=
    processJournalsLoop_spec cfg cfg.journals fs hdir hnames
  refine ⟨(fs1, log), ?_, hjs⟩
  simp only [process_journals, hdj, hsass, Bool.not_true]
  exact heq

theorem claim_C8_witness :
    (cfgW.djangoAvailable = true ∧ cfgW.sassAvailable = true ∧
     fsW.dirs cssDestDir = true ∧ (cfgW.journals.map journalOverrideName).Nodup) ∧
    ∃ r, process_journals cfgW cssDestDir fsW = .ok r ∧
      ∀ j ∈ cfgW.journals,
        (∀ f rest, journalScssFiles fsW j = f :: rest →
          r.1.files (cssDestDir ++ [journalOverrideName j]) =
            some (cfgW.sassCompile ((fsW.files (journalDir j ++ [f])).getD ""))) ∧
        (journalScssFiles fsW j = [] →
          r.1.files (cssDestDir ++ [journalOverrideName j]) =
            fsW.files (cssDestDir ++ [journalOverrideName j])) :=
  ⟨⟨rfl, rfl, by decide, by decide⟩, claim_C8 cfgW fsW rfl rfl (by decide) (by decide)⟩

theorem create_paths_dirs_themes (fs : FS) (r : List String) :
    (create_paths fs).1.dirs ("themes" :: r) = fs.dirs ("themes" :: r) := by
  simp [create_paths, mkdirParents, themes_not_pre_static]

theorem process_scss_ok (cfg : Config) (fs : FS) (h : fs.dirs cssDestDir = true) :
    ∃ fs1 log, process_scss cfg fs = .ok (fs1, log) ∧ fs1.dirs = fs.dirs := by
  have h2 : fs.dirs appCssFile.dropLast = true := h
  cases hdj : cfg.djangoAvailable with
  | false =>
    exact ⟨fs, ["django not available, skipping scss processing"],
      by simp [process_scss, hdj], rfl⟩
  | true =>
    cases hsass : cfg.sassAvailable with
    | false =>
      exact ⟨fs, ["sass not available, skipping scss processing"],
        by simp [process_scss, hdj, hsass], rfl⟩
    | true =>
      cases hfile : fs.files appScssFile with
      | none =>
        exact ⟨fs, ["scss file not found"],
          by simp [process_scss, hdj, hsass, hfile], rfl⟩
      | some c =>
        exact ⟨setFile fs appCssFile (cfg.sassCompile c), ["compiled scss"],
          by simp [process_scss, hdj, hsass, hfile, writeFile, h2], rfl⟩

theorem process_js_dirs_mono (cfg : Config) (fs : FS) (q : Path) (h : fs.dirs q = true) :
    (process_js cfg fs).1.dirs q = true := by
  cases hdj : cfg.djangoAvailable with
  | false => simpa [process_js, hdj] using h
  | true =>
    simp only [process_js, hdj, Bool.not_true]
    rw [if_neg Bool.false_ne_true, files_mkdirParents]
    cases hex : jsSourcePaths.filter (fun p => (fs.files p).isSome) with
    | nil =>
      rw [List.isEmpty_nil, Bool.not_true, if_neg Bool.false_ne_true]
      exact dirs_mkdirParents_mono fs _ q h
    | cons a l =>
      rw [List.isEmpty_cons, Bool.not_false, if_pos rfl, dirs_setFile]
      exact dirs_mkdirParents_mono fs _ q h

theorem processJournalsLoop_ok (cfg : Config) :
    ∀ (js : List Journal) (fs : FS), fs.dirs cssDestDir = true →
      ∃ fs1 log, processJournalsLoop cfg cssDestDir fs js = .ok (fs1, log) := by
  intro js
  induction js with
  | nil => intro fs _; exact ⟨fs, [], rfl⟩
  | cons j0 rest ih =>
    intro fs h
    cases hscss : journalScssFiles fs j0 with
    | nil =>
      obtain ⟨fs1, log, heq⟩ := ih fs h
      exact ⟨fs1, log, by simp only [processJournalsLoop, hscss]; exact heq⟩
    | cons f fr =>
      have hw : writeFile fs (cssDestDir ++ [journalOverrideName j0])
          (cfg.sassCompile ((fs.files (journalDir j0 ++ [f])).getD "")) =
          .ok (setFile fs (cssDestDir ++ [journalOverrideName j0])
            (cfg.sassCompile ((fs.files (journalDir j0 ++ [f])).getD ""))) := by
        unfold writeFile
        rw [List.dropLast_concat, h]
        rfl
      have h1 : (setFile fs (cssDestDir ++ [journalOverrideName j0])
          (cfg.sassCompile ((fs.files (journalDir j0 ++ [f])).getD ""))).dirs
            cssDestDir = true := h
      obtain ⟨fs1, log, heq⟩ := ih _ h1
      exact ⟨fs1, ("processing overrides for journal " ++ toString j0.id) :: log,
        by simp only [processJournalsLoop, hscss, hw, heq]⟩

theorem process_journals_ok (cfg : Config) (fs : FS) (h : fs.dirs cssDestDir = true) :
    ∃ r, process_journals cfg cssDestDir fs = .ok r := by
  cases hdj : cfg.djangoAvailable with
  | false =>
    exact ⟨(fs, ["django not available, skipping journal overrides"]),
      by simp [process_journals, hdj]⟩
  | true =>
    cases hsass : cfg.sassAvailable with
    | false =>
      exact ⟨(fs, ["sass not available, skipping journal overrides"]),
        by simp [process_journals, hdj, hsass]⟩
    | true =>
      obtain ⟨fs1, log, heq⟩ := processJournalsLoop_ok cfg cfg.journals fs h
      exact ⟨(fs1, log), by simp only [process_journals, hdj, hsass, Bool.not_true]; exact heq⟩

theorem build_copies_css_dir (fs : FS)
    (hcss : fs.dirs assetsSourceDir = true → fs.dirs (assetsSourceDir ++ ["css"]) = true) :
    (copy_all_assets (copy_css_assets (create_paths fs).1).1).1.dirs cssDestDir = true := by
  cases hsrc : fs.dirs assetsSourceDir with
  | false =>
    have e3 : (create_paths fs).1.dirs assetsSourceDir = fs.dirs assetsSourceDir :=
      create_paths_dirs_themes fs _
    have hsrc1 : (copy_css_assets (create_paths fs).1).1.dirs assetsSourceDir = false := by
      have e2 : assetsSourceDir.isPrefixOf cssDestDir = false := themes_not_pre_static _ _
      rw [copy_css_dirs, e2, Bool.or_false, e3, hsrc]
    have e4 : copy_all_assets (copy_css_assets (create_paths fs).1).1 =
        ((copy_css_assets (create_paths fs).1).1,
         ["source assets directory not found"], false) := by
      simp [copy_all_assets, hsrc1]
    rw [e4, copy_css_dirs, isPrefixOf_self, Bool.or_true]
  | true =>
    have e3 : (create_paths fs).1.dirs assetsSourceDir = fs.dirs assetsSourceDir :=
      create_paths_dirs_themes fs _
    have hsrc1 : (copy_css_assets (create_paths fs).1).1.dirs assetsSourceDir = true := by
      have e2 : assetsSourceDir.isPrefixOf cssDestDir = false := themes_not_pre_static _ _
      rw [copy_css_dirs, e2, Bool.or_false, e3, hsrc]
    have e5 : (copy_all_assets (copy_css_assets (create_paths fs).1).1).1.dirs cssDestDir =
        (copy_css_assets (create_paths fs).1).1.dirs (assetsSourceDir ++ ["css"]) :=
      copy_all_dirs_sub _ hsrc1 ["css"]
    rw [e5]
    have e6 : (assetsSourceDir ++ ["css"]).isPrefixOf cssDestDir = false :=
      themes_not_pre_static _ _
    rw [copy_css_dirs, e6, Bool.or_false]
    have e7 : (create_paths fs).1.dirs (assetsSourceDir ++ ["css"]) =
        fs.dirs (assetsSourceDir ++ ["css"]) := create_paths_dirs_themes fs _
    rw [e7]
    exact hcss hsrc

theorem build_full_ok (cfg : Config) (fs : FS)
    (hcss : fs.dirs assetsSourceDir = true → fs.dirs (assetsSourceDir ++ ["css"]) = true) :
    ∃ r, build_full cfg fs = .ok r := by
  have hdir2 := build_copies_css_dir fs hcss
  obtain ⟨fs3, log3, heq3, hdirs3⟩ := process_scss_ok cfg _ hdir2
  have hdir3 : fs3.dirs cssDestDir = true := by rw [hdirs3]; exact hdir2
  have hdir4 : (process_js cfg fs3).1.dirs cssDestDir = true :=
    process_js_dirs_mono cfg fs3 _ hdir3
  cases hdj : cfg.djangoAvailable with
  | false =>
    cases hb : build_full cfg fs with
    | ok r => exact ⟨r, rfl⟩
    | error e =>
      exfalso
      simp [build_full, heq3, hdj] at hb
  | true =>
    obtain ⟨rj, heqj⟩ := process_journals_ok cfg (process_js cfg fs3).1 hdir4
    have heqj2 : process_journals cfg (create_paths fs).2 (process_js cfg fs3).1 =
        .ok rj := heqj
    cases hb : build_full cfg fs with
    | ok r => exact ⟨r, rfl⟩
    | error e =>
      exfalso
      simp [build_full, heq3, hdj, heqj2] at hb

/-- Claim C1 (amended): for every mode and filesystem state, no exception
propagates to the top level — provided that the theme assets tree, when it
exists, contains a css subdirectory.  Without that proviso the claim fails:
in build mode `copy_all_assets` replaces static salford with the source
tree, and if that tree has no css subdirectory the subsequent unguarded
compile-output writes of `process_scss` (and `process_journals`) raise.
All other operations catch their precondition failures and convert them to
boolean returns or console messages. -/
theorem claim_C1 (cfg : Config) (argv : List String) (initialM : Nat) (obs : List Nat)
    (fs : FS)
    (hcss : fs.dirs assetsSourceDir = true → fs.dirs (assetsSourceDir ++ ["css"]) = true) :
    ∃ r, main cfg argv initialM obs fs = .ok r := by
  simp only [main]
  by_cases h1 : (argv.drop 1).headD "copy" = "help" ∨
      (argv.drop 1).headD "copy" = "--help" ∨ (argv.drop 1).headD "copy" = "-h"
  · rw [if_pos h1]
    exact ⟨_, rfl⟩
  · rw [if_neg h1]
    by_cases h2 : (argv.drop 1).headD "copy" = "copy"
    · rw [if_pos h2]
      exact ⟨_, rfl⟩
    · rw [if_neg h2]
      by_cases h3 : (argv.drop 1).headD "copy" = "watch"
      · rw [if_pos h3]
        exact ⟨_, rfl⟩
      · rw [if_neg h3]
        by_cases h4 : (argv.drop 1).headD "copy" = "build"
        · rw [if_pos h4]
          exact build_full_ok cfg fs hcss
        · rw [if_neg h4]
          exact ⟨_, rfl⟩

/-- Counterexample to claim C1 as stated: with Django and sass available,
a theme assets tree that exists but has no css subdirectory, and the SCSS
entry file present, build mode propagates an exception to the top level —
the unguarded write of the compiled output fails because the css
destination directory was removed by the full-tree copy. -/
theorem claim_C1_cex :
    main cfgW ["build_assets.py", "build"] 0 [] fsCE =
      .error (Err.parentMissing ["static", "salford", "css"]) := by rfl

theorem claim_C1_witness :
    (fsEmpty.dirs assetsSourceDir = true → fsEmpty.dirs (assetsSourceDir ++ ["css"]) = true) ∧
    ∃ r, main cfgW ["build_assets.py", "build"] 0 [] fsEmpty = .ok r :=
  ⟨by decide, claim_C1 cfgW ["build_assets.py", "build"] 0 [] fsEmpty (by decide)⟩

end BuildAssets
